import Mathlib

/-!
Shallow embedding of the file-reference-resolution and download-delivery
subsystem of the client portal (source: src/pages/Auth.tsx).

The pure helpers (`extractStoragePath`, the type-classification step of
`fetchFiles`) are translated directly.  The effectful download orchestration
(`handleDownload`) is modelled as a function of an explicit environment that
records how each external operation (signing request, public-URL request,
fetch, DOM save-as click, window.open) behaves; JavaScript exceptions are
modelled by the `JsResult.thrown` constructor and the source's try/catch
blocks by matching on it.
-/

/-- Character-list test that the first list is a leading segment of the
second; models JavaScript `String.startsWith` on the underlying
characters. -/
def isPrefixList : List Char → List Char → Bool
  | [], _ => true
  | _ :: _, [] => false
  | a :: as, b :: bs => if a = b then isPrefixList as bs else false

/-- Models JavaScript `s.startsWith(p)`. -/
def jsStartsWith (s p : String) : Bool :=
  isPrefixList p.data s.data

/-- Models JavaScript `String.prototype.split` with a one-character
separator: always returns a non-empty list, keeps empty segments. -/
def splitList (c : Char) : List Char → List (List Char)
  | [] => [[]]
  | x :: xs =>
    if x = c then [] :: splitList c xs
    else
      match splitList c xs with
      | [] => [[x]]
      | y :: ys => (x :: y) :: ys

/-- Models JavaScript `Array.prototype.indexOf` on a list of path segments:
first index of the segment, or the length of the list when absent (the
source compares the JavaScript result against -1; absence is modelled here
as the out-of-range index `length`). -/
def idxOfList (x : List Char) : List (List Char) → Nat
  | [] => 0
  | y :: ys => if y = x then 0 else idxOfList x ys + 1

/-- ASCII lower-casing of a character list; models
`String.prototype.toLowerCase` on the inputs that occur here. -/
def listToLower (l : List Char) : List Char :=
  l.map Char.toLower

/-- Value of a hexadecimal digit, if the character is one. -/
def hexVal (c : Char) : Option Nat :=
  if '0' ≤ c ∧ c ≤ '9' then some (c.toNat - 48)
  else if 'A' ≤ c ∧ c ≤ 'F' then some (c.toNat - 55)
  else if 'a' ≤ c ∧ c ≤ 'f' then some (c.toNat - 87)
  else none

/-- Percent-decoding of a character list (ASCII range); models
`decodeURIComponent`, which throws on a malformed escape — modelled by
`none`. -/
def percentDecodeList : List Char → Option (List Char)
  | [] => some []
  | c :: rest =>
    if c = '%' then
      match rest with
      | a :: b :: rest2 =>
        match hexVal a, hexVal b with
        | some h, some l =>
          if h * 16 + l < 128 then
            match percentDecodeList rest2 with
            | some ds => some (Char.ofNat (h * 16 + l) :: ds)
            | none => none
          else none
        | _, _ => none
      | _ => none
    else
      match percentDecodeList rest with
      | some ds => some (c :: ds)
      | none => none

/-- Runs `decodeURIComponent` on a segment; a decoding exception is caught
by the enclosing try/catch of the source, which then returns the original
file path (`fallback`). -/
def decodeOr (fallback : String) (cs : List Char) : String :=
  match percentDecodeList cs with
  | some ds => String.mk ds
  | none => fallback

/-- Pathname of an absolute http(s) URL given the characters after the
scheme separator: the authority runs to the first '/', '?' or '#'; an empty
authority is a parse error; an empty path is normalised to "/".  Models the
relevant behaviour of the platform `URL` constructor and its `pathname`
accessor. -/
def parsePathAfterAuthority (rest : List Char) : Option (List Char) :=
  let auth := rest.takeWhile (fun c => decide (c ≠ '/' ∧ c ≠ '?' ∧ c ≠ '#'))
  if auth = [] then none
  else
    match rest.drop auth.length with
    | [] => some ['/']
    | c :: cc =>
      if c = '/' then some ((c :: cc).takeWhile (fun d => decide (d ≠ '?' ∧ d ≠ '#')))
      else some ['/']

/-- Models `new URL(s).pathname` for absolute http/https URLs; `none`
models the constructor throwing on anything else. -/
def parseURLPathname (s : String) : Option (List Char) :=
  if isPrefixList "https://".data s.data then parsePathAfterAuthority (s.data.drop 8)
  else if isPrefixList "http://".data s.data then parsePathAfterAuthority (s.data.drop 7)
  else none

/-- Translation of `extractStoragePath` (Auth.tsx lines 328-358): a stored
reference not starting with "http" is already canonical; otherwise the URL
is parsed, and if the bucket marker "student-files" occurs before the final
path segment, everything after it is joined and URL-decoded; otherwise the
final segment is URL-decoded; any exception (URL parse or decode) yields
the original reference. -/
def extractStoragePath (filePath : String) : String :=
  if jsStartsWith filePath "http" then
    match parseURLPathname filePath with
    | none => filePath
    | some pathname =>
      let pathParts := splitList '/' pathname
      let bucketIndex := idxOfList "student-files".data pathParts
      if bucketIndex ≠ pathParts.length ∧ bucketIndex < pathParts.length - 1 then
        decodeOr filePath (List.intercalate ['/'] (pathParts.drop (bucketIndex + 1)))
      else
        decodeOr filePath (pathParts.getLastD [])
  else filePath

/-- The fixed MIME-to-extension table of `fetchFiles` (Auth.tsx lines
267-285). -/
def mimeTable : List (String × String) :=
  [("image/png", "png"), ("image/jpeg", "jpg"), ("image/jpg", "jpg"),
   ("image/gif", "gif"), ("image/svg+xml", "svg"), ("application/pdf", "pdf"),
   ("application/vnd.openxmlformats-officedocument.wordprocessingml.document", "docx"),
   ("application/vnd.openxmlformats-officedocument.spreadsheetml.sheet", "xlsx"),
   ("application/vnd.openxmlformats-officedocument.presentationml.presentation", "pptx"),
   ("text/plain", "txt"), ("video/mp4", "mp4"), ("video/avi", "avi"),
   ("video/mov", "mov"), ("audio/mp3", "mp3"), ("audio/wav", "wav"),
   ("application/zip", "zip"), ("application/x-rar-compressed", "rar")]

/-- First-match association lookup; models the JavaScript object property
access `mimeToExt[fileType]`. -/
def tableLookup : List (String × String) → String → Option String
  | [], _ => none
  | (k, v) :: rest, t => if t = k then some v else tableLookup rest t

/-- Models `file.name.split('.').pop()?.toLowerCase()` (Auth.tsx line
292). -/
def jsFileExt (fileName : String) : List Char :=
  listToLower ((splitList '.' fileName.data).getLastD [])

/-- Filename-based fallback of the classification step:
`extension || 'file'` (Auth.tsx line 293). -/
def classifyFromName (fileName : String) : String :=
  if jsFileExt fileName = [] then "file" else String.mk (jsFileExt fileName)

/-- The MIME phase of the classification step (Auth.tsx lines 266-288):
for a non-empty metadata string containing '/', the table value, else the
segment after the first '/', else "file"; other metadata passes through. -/
def mimePhase (t : String) : String :=
  if t ≠ "" ∧ '/' ∈ t.data then
    match tableLookup mimeTable t with
    | some e => e
    | none =>
      if (splitList '/' t.data).getD 1 [] = [] then "file"
      else String.mk ((splitList '/' t.data).getD 1 [])
  else t

/-- Translation of the per-record type classification of `fetchFiles`
(Auth.tsx lines 262-300): the MIME phase, then — when its result is empty
or the generic tag — the filename-extension fallback. -/
def classify (typeMetadata fileName : String) : String :=
  if mimePhase typeMetadata = "" ∨ mimePhase typeMetadata = "file" then
    classifyFromName fileName
  else mimePhase typeMetadata

/-- Spec-side restatement (for claim C6 as amended) of what `classify`
does on compound MIME metadata: table value when present; otherwise the
segment between the first and second separator, unless that segment is
empty or the generic tag, in which case classification falls through to
the filename extension. -/
def classifyCompoundSpec (t n : String) : String :=
  match tableLookup mimeTable t with
  | some e => e
  | none =>
    if (splitList '/' t.data).getD 1 [] = [] ∨
        String.mk ((splitList '/' t.data).getD 1 []) = "file" then
      classifyFromName n
    else String.mk ((splitList '/' t.data).getD 1 [])

/-- Result of a piece of JavaScript code that can throw: either a value or
a thrown exception. -/
inductive JsResult (α : Type) where
  | ok (a : α)
  | thrown
  deriving DecidableEq, Repr

/-- Terminal outcomes of a download run, labelling the exit paths of
`handleDownload` with the taxonomy of the design document: `done` for the
paths that complete a delivery action, `accessDenied` for the silent return
taken when both the signing request and the public-URL fallback fail, and
`allStrategiesExhausted` for the outer catch-all handler. -/
inductive DownloadOutcome where
  | done
  | accessDenied
  | allStrategiesExhausted
  deriving DecidableEq, Repr

/-- Observable external actions performed by `handleDownload`, in order. -/
inductive Act where
  | createSigned (path : String) (ttl : Nat)
  | getPublic (path : String)
  | directLinkClick (url : String) (name : String)
  | fetchAttempt (url : String)
  | createObjectURL
  | saveAsClick (name : String)
  | revokeObjectURL
  | openNewContext (url : String)
  deriving DecidableEq, Repr

/-- Behaviour of the external world during one download run.  Fields, in
order: result of the signing request (`none` models the error branch);
the public URL returned by `getPublicUrl` (the source treats an empty
string as falsy); whether the DOM anchor-click sequence of the public-URL
branch completes without throwing; the fetch result (`none` models a
network rejection, `some ok` a response with that `ok` flag); whether
`response.blob()` resolves; whether the DOM append/click sequence of the
blob branch completes without throwing; whether `window.open` completes
without throwing. -/
structure DownloadEnv where
  signedUrl : Option String
  publicUrl : String
  anchorClickOk : Bool
  fetchResult : Option Bool
  blobOk : Bool
  clickOk : Bool
  openOk : Bool
  deriving DecidableEq, Repr

/-- Strategy 1 of `handleDownload` (Auth.tsx lines 393-424): fetch the
signed URL, materialise the body as a blob, create a blob URL (one pending
transient reference), trigger the save-as click and schedule the cleanup
that revokes the blob URL.  The returned number counts transient
references still pending after the run: the scheduled cleanup always runs
on the path that reaches it, but an exception between `createObjectURL`
and the scheduling of the cleanup leaves the reference pending. -/
def strategy1 (env : DownloadEnv) (url fileName : String) :
    JsResult Unit × List Act × Nat :=
  match env.fetchResult with
  | none => (JsResult.thrown, [Act.fetchAttempt url], 0)
  | some ok =>
    if ok then
      if env.blobOk then
        if env.clickOk then
          (JsResult.ok (), [Act.fetchAttempt url, Act.createObjectURL,
            Act.saveAsClick fileName, Act.revokeObjectURL], 0)
        else
          (JsResult.thrown, [Act.fetchAttempt url, Act.createObjectURL], 1)
      else (JsResult.thrown, [Act.fetchAttempt url], 0)
    else (JsResult.thrown, [Act.fetchAttempt url], 0)

/-- Body of `handleDownload` inside the outer try (Auth.tsx lines 361-429):
request a signed URL with a 300-second time-to-live; on signing failure,
fall back to the public URL and — when it is non-empty — deliver by a
direct anchor click (otherwise return silently); on signing success run
strategy 1 and, if it throws, open the signed URL in a new context.
`JsResult.thrown` marks an exception escaping the body into the outer
catch. -/
def runBody (env : DownloadEnv) (filePath fileName : String) :
    JsResult DownloadOutcome × List Act × Nat :=
  let storagePath := extractStoragePath filePath
  match env.signedUrl with
  | none =>
    if env.publicUrl = "" then
      (JsResult.ok DownloadOutcome.accessDenied,
        [Act.createSigned storagePath 300, Act.getPublic storagePath], 0)
    else
      if env.anchorClickOk then
        (JsResult.ok DownloadOutcome.done,
          [Act.createSigned storagePath 300, Act.getPublic storagePath,
           Act.directLinkClick env.publicUrl fileName], 0)
      else
        (JsResult.thrown,
          [Act.createSigned storagePath 300, Act.getPublic storagePath,
           Act.directLinkClick env.publicUrl fileName], 0)
  | some url =>
    match strategy1 env url fileName with
    | (JsResult.ok _, tr, r) =>
      (JsResult.ok DownloadOutcome.done, Act.createSigned storagePath 300 :: tr, r)
    | (JsResult.thrown, tr, r) =>
      if env.openOk then
        (JsResult.ok DownloadOutcome.done,
          Act.createSigned storagePath 300 :: tr ++ [Act.openNewContext url], r)
      else
        (JsResult.thrown,
          Act.createSigned storagePath 300 :: tr ++ [Act.openNewContext url], r)

/-- Translation of `handleDownload` (Auth.tsx lines 360-433): the body
wrapped in the outer try/catch, which absorbs any exception and ends the
run; the catch-all exit is labelled `allStrategiesExhausted`.  Returns the
outcome, the action trace, and the number of transient references still
pending. -/
def handleDownload (env : DownloadEnv) (filePath fileName : String) :
    DownloadOutcome × List Act × Nat :=
  match runBody env filePath fileName with
  | (JsResult.ok o, tr, r) => (o, tr, r)
  | (JsResult.thrown, tr, r) => (DownloadOutcome.allStrategiesExhausted, tr, r)

/-- Delivery-strategy number of an action, when it is a strategy attempt:
1 for the streamed fetch, 2 for the direct-link click, 3 for the
new-context attempt. -/
def attemptKind : Act → Option Nat
  | Act.fetchAttempt _ => some 1
  | Act.directLinkClick _ _ => some 2
  | Act.openNewContext _ => some 3
  | _ => none

/-- Sequence of delivery-strategy attempts in a trace. -/
def attemptKinds (tr : List Act) : List Nat :=
  tr.filterMap attemptKind

/-- Signed URL obtained, fetch rejects with a network error, everything
else succeeds. -/
def envFetchFail : DownloadEnv :=
  ⟨some "https://signed.example/k", "", true, none, true, true, true⟩

/-- Signing fails, public URL available, all platform actions succeed. -/
def envPub : DownloadEnv :=
  ⟨none, "https://public.example/k", true, some true, true, true, true⟩

/-- Signing succeeds and all platform actions succeed. -/
def envSig : DownloadEnv :=
  ⟨some "https://signed.example/k", "", true, some true, true, true, true⟩

/-- Signing fails, public URL available, but the anchor-click sequence of
the direct-link attempt throws. -/
def envAnchorThrow : DownloadEnv :=
  ⟨none, "https://public.example/k", false, some true, true, true, true⟩

/-- Signed URL obtained, fetch and blob succeed, but the save-as click
throws after the blob URL was created, and `window.open` also throws. -/
def envLeak : DownloadEnv :=
  ⟨some "https://signed.example/k", "", true, some true, true, false, false⟩

theorem splitList_ne_nil (c : Char) (l : List Char) : splitList c l ≠ [] := by
  cases l with
  | nil => simp [splitList]
  | cons x xs =>
    simp only [splitList]
    split
    · simp
    · split <;> simp

theorem splitList_not_mem (c : Char) (l : List Char) (h : c ∉ l) :
    splitList c l = [l] := by
  induction l with
  | nil => rfl
  | cons x xs ih =>
    have hx : x ≠ c := fun he => h (he ▸ List.mem_cons_self x xs)
    have hxs : c ∉ xs := fun hm => h (List.mem_cons_of_mem x hm)
    simp only [splitList, hx, if_false, ih hxs]

theorem mk_nil_eq : String.mk [] = "" := rfl

theorem mk_eq_empty (l : List Char) : String.mk l = "" ↔ l = [] := by
  constructor
  · intro h
    have : (String.mk l).data = ("" : String).data := by rw [h]
    simpa using this
  · intro h
    rw [h]

theorem data_eq_nil (s : String) : s.data = [] ↔ s = "" := by
  cases s with
  | mk d =>
    constructor
    · intro h
      simp only at h
      rw [h]
    · intro h
      rw [h]

theorem isPrefixList_append (l₁ l₂ cs : List Char)
    (h : isPrefixList (l₁ ++ l₂) cs = true) : isPrefixList l₁ cs = true := by
  induction l₁ generalizing cs with
  | nil => rfl
  | cons a as ih =>
    cases cs with
    | nil => simp [isPrefixList] at h
    | cons b bs =>
      simp only [List.cons_append, isPrefixList] at h ⊢
      split at h
      · next hab => simpa [hab] using ih bs h
      · exact absurd h (by simp)

theorem isPrefixList_mem (p cs : List Char) (h : isPrefixList p cs = true)
    (x : Char) (hx : x ∈ p) : x ∈ cs := by
  induction p generalizing cs with
  | nil => simp at hx
  | cons a as ih =>
    cases cs with
    | nil => simp [isPrefixList] at h
    | cons b bs =>
      simp only [isPrefixList] at h
      split at h
      · next hab =>
        rcases List.mem_cons.mp hx with h1 | h2
        · exact h1 ▸ hab ▸ List.mem_cons_self b bs
        · exact List.mem_cons_of_mem b (ih bs h h2)
      · exact absurd h (by simp)

theorem parse_some_startsWith (s : String) (p : List Char)
    (h : parseURLPathname s = some p) : jsStartsWith s "http" = true := by
  simp only [parseURLPathname] at h
  split at h
  · next h8 =>
    exact isPrefixList_append "http".data "s://".data s.data (by exact h8)
  · split at h
    · next h7 =>
      exact isPrefixList_append "http".data "://".data s.data (by exact h7)
    · exact absurd h (by simp)

theorem tableLookup_mem (l : List (String × String)) (t e : String)
    (h : tableLookup l t = some e) : ∃ k, (k, e) ∈ l := by
  induction l with
  | nil => simp [tableLookup] at h
  | cons p rest ih =>
    obtain ⟨k, v⟩ := p
    simp only [tableLookup] at h
    split at h
    · cases h
      exact ⟨k, List.mem_cons_self _ _⟩
    · obtain ⟨k2, hk2⟩ := ih h
      exact ⟨k2, List.mem_cons_of_mem _ hk2⟩

theorem mimeTable_vals : ∀ p ∈ mimeTable, p.2 ≠ "" ∧ p.2 ≠ "file" := by decide

theorem classifyFromName_ne_empty (n : String) : classifyFromName n ≠ "" := by
  simp only [classifyFromName]
  split
  · decide
  · next h => simpa [mk_eq_empty] using h

theorem handleDownload_snd (env : DownloadEnv) (fp fn : String) :
    (handleDownload env fp fn).2 = (runBody env fp fn).2 := by
  simp only [handleDownload]
  rcases h : runBody env fp fn with ⟨res, tr, r⟩
  cases res <;> rfl

/-- C7: `extractStoragePath` (resolve) is total and never throws — it is a
plain function here, every caught exception included — and whenever URL
parsing fails the result is the original stored reference unchanged. -/
theorem resolve_parse_failure_identity (s : String)
    (h : parseURLPathname s = none) : extractStoragePath s = s := by
  simp only [extractStoragePath, h]
  cases hsw : jsStartsWith s "http" <;> simp

/-- Witness for C7 at the concrete input "httpx", whose URL parse fails. -/
theorem resolve_parse_failure_identity_witness :
    parseURLPathname "httpx" = none ∧ extractStoragePath "httpx" = "httpx" :=
  ⟨by decide, resolve_parse_failure_identity "httpx" (by decide)⟩

/-- C9: a stored reference with no scheme (no ':' anywhere, so it cannot be
an absolute URL) is returned unchanged by `extractStoragePath`, and hence
resolution is idempotent on already-canonical keys. -/
theorem resolve_canonical_identity (x : String) (h : ':' ∉ x.data) :
    extractStoragePath x = x ∧
    extractStoragePath (extractStoragePath x) = extractStoragePath x := by
  have hx : extractStoragePath x = x := by
    cases hsw : jsStartsWith x "http" with
    | false => simp [extractStoragePath, hsw]
    | true =>
      have hp : parseURLPathname x = none := by
        simp only [parseURLPathname]
        have h1 : isPrefixList "https://".data x.data = false := by
          cases hh : isPrefixList "https://".data x.data
          · rfl
          · exact absurd (isPrefixList_mem _ _ hh ':' (by decide)) h
        have h2 : isPrefixList "http://".data x.data = false := by
          cases hh : isPrefixList "http://".data x.data
          · rfl
          · exact absurd (isPrefixList_mem _ _ hh ':' (by decide)) h
        simp [h1, h2]
      simp [extractStoragePath, hsw, hp]
  refine ⟨hx, ?_⟩
  rw [hx]
  exact hx

/-- Witness for C9 at the concrete canonical key "docs/report.pdf". -/
theorem resolve_canonical_identity_witness :
    (':' ∉ ("docs/report.pdf" : String).data) ∧
    extractStoragePath "docs/report.pdf" = "docs/report.pdf" ∧
    extractStoragePath (extractStoragePath "docs/report.pdf") =
      extractStoragePath "docs/report.pdf" :=
  ⟨by decide, (resolve_canonical_identity "docs/report.pdf" (by decide)).1,
    (resolve_canonical_identity "docs/report.pdf" (by decide)).2⟩

/-- C5 counterexample: for the URL "https://store.example/student-files"
the marker "student-files" is found in the path, the claim therefore
demands the (empty) join of the segments after it, yet the code returns
the final segment "student-files" itself, because the source additionally
requires the marker to sit strictly before the final segment. -/
theorem resolve_marker_last_counterexample :
    parseURLPathname "https://store.example/student-files" = some ("/student-files".data) ∧
    idxOfList "student-files".data (splitList '/' ("/student-files".data)) <
      (splitList '/' ("/student-files".data)).length ∧
    List.intercalate ['/'] ((splitList '/' ("/student-files".data)).drop
      (idxOfList "student-files".data (splitList '/' ("/student-files".data)) + 1)) = [] ∧
    extractStoragePath "https://store.example/student-files" = "student-files" ∧
    ("student-files" : String) ≠ String.mk [] := by decide

/-- C5 as amended: for every stored reference that parses as an absolute
URL, if the marker "student-files" occurs strictly before the final path
segment then resolution yields every segment after it, joined and
URL-decoded (original reference on a decoding exception); otherwise —
marker absent or final — it yields the final segment, URL-decoded; and the
shaped example resolves to "report.pdf". -/
theorem resolve_url_spec :
    (∀ ref p, parseURLPathname ref = some p →
      (idxOfList "student-files".data (splitList '/' p) + 1 < (splitList '/' p).length →
        extractStoragePath ref =
          decodeOr ref (List.intercalate ['/']
            ((splitList '/' p).drop (idxOfList "student-files".data (splitList '/' p) + 1)))) ∧
      (¬ idxOfList "student-files".data (splitList '/' p) + 1 < (splitList '/' p).length →
        extractStoragePath ref = decodeOr ref ((splitList '/' p).getLastD []))) ∧
    extractStoragePath "https://store.example/object/public/student-files/report.pdf" =
      "report.pdf" := by
  constructor
  · intro ref p hp
    have hsw := parse_some_startsWith ref p hp
    have hlen : 0 < (splitList '/' p).length :=
      List.length_pos.mpr (splitList_ne_nil '/' p)
    constructor
    · intro hc
      have hcond : idxOfList "student-files".data (splitList '/' p) ≠
          (splitList '/' p).length ∧
          idxOfList "student-files".data (splitList '/' p) <
            (splitList '/' p).length - 1 := by omega
      simp only [extractStoragePath, hsw, if_true, hp]
      rw [if_pos hcond]
    · intro hc
      have hcond : ¬ (idxOfList "student-files".data (splitList '/' p) ≠
          (splitList '/' p).length ∧
          idxOfList "student-files".data (splitList '/' p) <
            (splitList '/' p).length - 1) := by
        rintro ⟨h1, h2⟩
        omega
      simp only [extractStoragePath, hsw, if_true, hp]
      rw [if_neg hcond]
  · decide

/-- Witness for C5 as amended, at a URL whose marker is followed by one
segment. -/
theorem resolve_url_spec_witness :
    parseURLPathname "https://h/student-files/a.pdf" = some ("/student-files/a.pdf".data) ∧
    idxOfList "student-files".data (splitList '/' ("/student-files/a.pdf".data)) + 1 <
      (splitList '/' ("/student-files/a.pdf".data)).length ∧
    extractStoragePath "https://h/student-files/a.pdf" =
      decodeOr "https://h/student-files/a.pdf" (List.intercalate ['/']
        ((splitList '/' ("/student-files/a.pdf".data)).drop
          (idxOfList "student-files".data (splitList '/' ("/student-files/a.pdf".data)) + 1))) :=
  ⟨by decide, by decide,
    (resolve_url_spec.1 "https://h/student-files/a.pdf" ("/student-files/a.pdf".data)
      (by decide)).1 (by decide)⟩

/-- C6 counterexample: "weird/file" is compound MIME metadata absent from
the table whose substring after the separator is "file", yet `classify`
returns the filename extension "txt" instead of "file", because the
generic tag triggers the filename fallback. -/
theorem classify_tag_file_counterexample :
    ('/' ∈ ("weird/file" : String).data) ∧
    tableLookup mimeTable "weird/file" = none ∧
    (splitList '/' ("weird/file" : String).data).getD 1 [] = "file".data ∧
    classify "weird/file" "notes.txt" = "txt" ∧ ("txt" : String) ≠ "file" := by decide

/-- C6 as amended: on compound MIME metadata `classify` agrees with the
spec-side table-then-segment rule in which an empty or generic
after-separator segment falls through to the filename extension; and the
three enumerated examples hold. -/
theorem classify_compound_table (t n : String) (hm : '/' ∈ t.data) :
    classify t n = classifyCompoundSpec t n := by
  have ht : t ≠ "" := by
    intro he
    rw [he] at hm
    exact absurd hm (by decide)
  have hc : t ≠ "" ∧ '/' ∈ t.data := ⟨ht, hm⟩
  cases hl : tableLookup mimeTable t with
  | some e =>
    obtain ⟨k, hk⟩ := tableLookup_mem _ _ _ hl
    obtain ⟨he1, he2⟩ := mimeTable_vals (k, e) hk
    have hmp : mimePhase t = e := by
      simp only [mimePhase]
      rw [if_pos hc, hl]
    simp only [classify, classifyCompoundSpec, hmp, hl]
    rw [if_neg (by simp [he1, he2])]
  | none =>
    have hmp : mimePhase t =
        (if (splitList '/' t.data).getD 1 [] = [] then "file"
         else String.mk ((splitList '/' t.data).getD 1 [])) := by
      simp only [mimePhase]
      rw [if_pos hc, hl]
    by_cases hp : (splitList '/' t.data).getD 1 [] = []
    · have hmp2 : mimePhase t = "file" := by rw [hmp, if_pos hp]
      simp only [classify, classifyCompoundSpec, hl, hmp2]
      rw [if_pos (Or.inr trivial), if_pos (Or.inl hp)]
    · by_cases hf : String.mk ((splitList '/' t.data).getD 1 []) = "file"
      · have hmp2 : mimePhase t = String.mk ((splitList '/' t.data).getD 1 []) := by
          rw [hmp, if_neg hp]
        simp only [classify, classifyCompoundSpec, hl, hmp2]
        rw [if_pos (Or.inr hf), if_pos (Or.inr hf)]
      · have hne : String.mk ((splitList '/' t.data).getD 1 []) ≠ "" := by
          simpa [mk_eq_empty] using hp
        have hmp2 : mimePhase t = String.mk ((splitList '/' t.data).getD 1 []) := by
          rw [hmp, if_neg hp]
        simp only [classify, classifyCompoundSpec, hl, hmp2]
        rw [if_neg (show ¬ (String.mk ((splitList '/' t.data).getD 1 []) = "" ∨
              String.mk ((splitList '/' t.data).getD 1 []) = "file") from by
            rintro (h1 | h2)
            · exact hne h1
            · exact hf h2),
          if_neg (show ¬ ((splitList '/' t.data).getD 1 [] = [] ∨
              String.mk ((splitList '/' t.data).getD 1 []) = "file") from by
            rintro (h1 | h2)
            · exact hp h1
            · exact hf h2)]

/-- Witness for C6 as amended at a compound form absent from the table,
together with the three enumerated evaluations of the claim. -/
theorem classify_compound_table_witness :
    ('/' ∈ ("a/b" : String).data) ∧
    classify "a/b" "n.txt" = classifyCompoundSpec "a/b" "n.txt" ∧
    classify "image/png" "x" = "png" ∧ classify "" "notes.docx" = "docx" ∧
    classify "" "" = "file" :=
  ⟨by decide, classify_compound_table "a/b" "n.txt" (by decide), by decide, by decide,
    by decide⟩

/-- C8: `classify` is total and never returns the empty tag, and when there
is no signal at all — empty metadata and an empty filename-extension
signal — it returns the generic tag "file". -/
theorem classify_total_nonempty (t n : String) :
    classify t n ≠ "" ∧
    ((t = "" ∧ (splitList '.' n.data).getLastD [] = []) → classify t n = "file") := by
  constructor
  · simp only [classify]
    split
    · exact classifyFromName_ne_empty n
    · next h => exact fun he => h (Or.inl he)
  · rintro ⟨ht, hext⟩
    subst ht
    have hmp : mimePhase "" = "" := by decide
    have hext2 : jsFileExt n = [] := by
      simp only [jsFileExt, listToLower]
      rw [hext]
      rfl
    simp [classify, hmp, classifyFromName, hext2]

/-- Witness for C8 at the fully empty input. -/
theorem classify_total_nonempty_witness :
    (("" : String) = "" ∧ (splitList '.' ("" : String).data).getLastD [] = []) ∧
    classify "" "" = "file" :=
  ⟨⟨rfl, by decide⟩, (classify_total_nonempty "" "").2 ⟨rfl, by decide⟩⟩

/-- C10 counterexample: the empty filename contains no '.', the claim
therefore demands the entire filename lower-cased (the empty string), yet
`classify` returns "file" because the empty extension is falsy. -/
theorem classify_empty_name_counterexample :
    ('.' ∉ ("" : String).data) ∧ classify "" "" = "file" ∧
    ("file" : String) ≠ String.mk (listToLower ("" : String).data) := by decide

/-- C10 as amended: when the metadata is empty or the generic tag and the
filename is non-empty and dotless, `classify` returns the entire filename
lower-cased. -/
theorem classify_dotless_lowercase (t n : String) (ht : t = "" ∨ t = "file")
    (hn : n ≠ "") (hd : '.' ∉ n.data) :
    classify t n = String.mk (listToLower n.data) := by
  have hmp : mimePhase t = t := by
    rcases ht with h | h <;> subst h <;> decide
  have hcond : mimePhase t = "" ∨ mimePhase t = "file" := by
    rw [hmp]
    exact ht
  have hsplit : splitList '.' n.data = [n.data] := splitList_not_mem '.' n.data hd
  have hext : jsFileExt n = listToLower n.data := by simp [jsFileExt, hsplit]
  have hnnil : n.data ≠ [] := fun h => hn ((data_eq_nil n).mp h)
  have hextne : jsFileExt n ≠ [] := by
    rw [hext]
    simp only [listToLower]
    exact fun h => hnnil (List.map_eq_nil_iff.mp h)
  simp only [classify, if_pos hcond, classifyFromName]
  rw [if_neg hextne, hext]

/-- Witness for C10 as amended at the dotless filename "README". -/
theorem classify_dotless_lowercase_witness :
    ((("" : String) = "" ∨ ("" : String) = "file") ∧ ("README" : String) ≠ "" ∧
      '.' ∉ ("README" : String).data) ∧ classify "" "README" = "readme" := by
  refine ⟨⟨Or.inl rfl, by decide, by decide⟩, ?_⟩
  have h := classify_dotless_lowercase "" "README" (Or.inl rfl) (by decide) (by decide)
  rw [h]
  decide

/-- C1 counterexample: with a signed URL obtained and the fetch rejecting,
strategy 1 fails and the very next (and only other) attempt is strategy 3
(the new context); strategy 2 is never attempted, contradicting the
claimed 1 → 2 → 3 chain. -/
theorem download_skips_direct_link_counterexample :
    (strategy1 envFetchFail "https://signed.example/k" "n").1 = JsResult.thrown ∧
    attemptKinds (handleDownload envFetchFail "k" "n").2.1 = [1, 3] ∧
    (2 : Nat) ∉ attemptKinds (handleDownload envFetchFail "k" "n").2.1 := by decide

/-- C1 as amended: whenever the signing request succeeds and strategy 1
(streamed fetch + save) fails, the new-context strategy is attempted
immediately and the attempt sequence is exactly [1, 3]; the direct-link
strategy (2) is attempted only in runs where the signing request failed
and a public URL was available. -/
theorem download_strategy_order :
    (∀ env fp fn u, env.signedUrl = some u →
      (strategy1 env u fn).1 = JsResult.thrown →
      attemptKinds (handleDownload env fp fn).2.1 = [1, 3]) ∧
    (∀ env fp fn url nm, Act.directLinkClick url nm ∈ (handleDownload env fp fn).2.1 →
      env.signedUrl = none ∧ env.publicUrl ≠ "") := by
  constructor
  · intro env fp fn u hsu hth
    obtain ⟨su, pu, ac, fr, bo, co, oo⟩ := env
    simp only at hsu
    subst hsu
    rcases fr with _ | ok
    · cases oo <;>
        simp [handleDownload, runBody, strategy1, attemptKinds, attemptKind]
    · rcases ok <;> rcases bo <;> rcases co <;> rcases oo <;>
        first
        | (simp only [handleDownload, runBody, strategy1, attemptKinds]
           simp [attemptKind]
           done)
        | (exfalso
           simp [strategy1] at hth)
  · intro env fp fn url nm hmem
    obtain ⟨su, pu, ac, fr, bo, co, oo⟩ := env
    rcases su with _ | u
    · by_cases hpu : pu = ""
      · exfalso
        subst hpu
        simp [handleDownload, runBody] at hmem
      · rcases ac <;> exact ⟨rfl, hpu⟩
    · exfalso
      rcases fr with _ | ok
      · cases oo <;> simp [handleDownload, runBody, strategy1] at hmem
      · rcases ok <;> rcases bo <;> rcases co <;> rcases oo <;>
          simp [handleDownload, runBody, strategy1] at hmem

/-- Witness for C1 as amended: in `envLeak` the signing request succeeded,
strategy 1 throws after materialisation, and the attempt sequence is
exactly [1, 3]. -/
theorem download_strategy_order_witness :
    envLeak.signedUrl = some "https://signed.example/k" ∧
    (strategy1 envLeak "https://signed.example/k" "n").1 = JsResult.thrown ∧
    attemptKinds (handleDownload envLeak "k" "n").2.1 = [1, 3] :=
  ⟨rfl, by decide,
    download_strategy_order.1 envLeak "k" "n" "https://signed.example/k" rfl (by decide)⟩

/-- C2 counterexample: under equally successful platform behaviour, the
run that got its URL from the public fallback delivers by the direct-link
click (attempt sequence [2]) while the run with a signed URL delivers by
the streamed fetch (attempt sequence [1]): the subsequent delivery
behaviour differs between the two grant sources. -/
theorem grant_path_distinguishable_counterexample :
    attemptKinds (handleDownload envPub "k" "n").2.1 = [2] ∧
    attemptKinds (handleDownload envSig "k" "n").2.1 = [1] ∧
    ([2] : List Nat) ≠ [1] := by decide

/-- C2 as amended: every run first requests a signed URL for the resolved
key with a 300-second time-to-live; when signing fails and the public URL
is non-empty the run delivers from the public URL by the direct-link
strategy alone (attempt sequence [2]), whereas when signing succeeds the
first delivery attempt is always the streamed fetch (strategy 1). -/
theorem access_url_fallback (env : DownloadEnv) (fp fn : String) :
    (handleDownload env fp fn).2.1.head? =
      some (Act.createSigned (extractStoragePath fp) 300) ∧
    (env.signedUrl = none → env.publicUrl ≠ "" →
      attemptKinds (handleDownload env fp fn).2.1 = [2]) ∧
    (∀ u, env.signedUrl = some u →
      (attemptKinds (handleDownload env fp fn).2.1).head? = some 1) := by
  obtain ⟨su, pu, ac, fr, bo, co, oo⟩ := env
  refine ⟨?_, ?_, ?_⟩
  · rcases su with _ | u
    · by_cases hpu : pu = "" <;> rcases ac <;>
        simp [handleDownload, runBody, hpu]
    · rcases fr with _ | ok
      · cases oo <;> simp [handleDownload, runBody, strategy1]
      · rcases ok <;> rcases bo <;> rcases co <;> rcases oo <;>
          simp [handleDownload, runBody, strategy1]
  · intro hsu hpu
    simp only at hsu
    subst hsu
    rcases ac <;> simp [handleDownload, runBody, attemptKinds, attemptKind, hpu]
  · intro u hsu
    simp only at hsu
    subst hsu
    rcases fr with _ | ok
    · cases oo <;> simp [handleDownload, runBody, strategy1, attemptKinds, attemptKind]
    · rcases ok <;> rcases bo <;> rcases co <;> rcases oo <;>
        simp [handleDownload, runBody, strategy1, attemptKinds, attemptKind]

/-- Witness for C2 as amended at the environment where signing fails and
the public URL is available. -/
theorem access_url_fallback_witness :
    envPub.signedUrl = none ∧ envPub.publicUrl ≠ "" ∧
    attemptKinds (handleDownload envPub "k" "n").2.1 = [2] :=
  ⟨rfl, by decide, (access_url_fallback envPub "k" "n").2.1 rfl (by decide)⟩

/-- C3 counterexample: when the direct-link (public-URL) attempt itself
throws, the run ends as `allStrategiesExhausted` even though that strategy
failure drove no further fallback — the attempt sequence is just [2] — so
an internal strategy failure does not always drive fallback selection, and
`AllStrategiesExhausted` can be reported without the full chain having
been attempted. -/
theorem direct_link_failure_terminal_counterexample :
    (handleDownload envAnchorThrow "k" "n").1 = DownloadOutcome.allStrategiesExhausted ∧
    attemptKinds (handleDownload envAnchorThrow "k" "n").2.1 = [2] ∧
    (1 : Nat) ∉ attemptKinds (handleDownload envAnchorThrow "k" "n").2.1 ∧
    (3 : Nat) ∉ attemptKinds (handleDownload envAnchorThrow "k" "n").2.1 := by decide

/-- C3 as amended: no exception from inside a delivery strategy reaches
the caller — any exception escaping the body is absorbed by the outer
handler and surfaced as `allStrategiesExhausted`; a strategy-1 failure
does drive fallback to the new-context attempt; `accessDenied` is reported
exactly when both the signing request and the public-URL fallback fail;
and the boundary outcome is always one of the three terminal outcomes. -/
theorem download_failure_isolation (env : DownloadEnv) (fp fn : String) :
    ((runBody env fp fn).1 = JsResult.thrown →
      (handleDownload env fp fn).1 = DownloadOutcome.allStrategiesExhausted) ∧
    ((handleDownload env fp fn).1 = DownloadOutcome.accessDenied ↔
      env.signedUrl = none ∧ env.publicUrl = "") ∧
    (∀ u, env.signedUrl = some u → (strategy1 env u fn).1 = JsResult.thrown →
      Act.openNewContext u ∈ (handleDownload env fp fn).2.1) ∧
    ((handleDownload env fp fn).1 = DownloadOutcome.done ∨
      (handleDownload env fp fn).1 = DownloadOutcome.accessDenied ∨
      (handleDownload env fp fn).1 = DownloadOutcome.allStrategiesExhausted) := by
  obtain ⟨su, pu, ac, fr, bo, co, oo⟩ := env
  refine ⟨?_, ?_, ?_, ?_⟩
  · intro hth
    simp only [handleDownload]
    rcases h : runBody ⟨su, pu, ac, fr, bo, co, oo⟩ fp fn with ⟨res, tr, r⟩
    rw [h] at hth
    simp only at hth
    rw [hth]
  · constructor
    · intro hdone
      rcases su with _ | u
      · by_cases hpu : pu = ""
        · exact ⟨rfl, hpu⟩
        · exfalso
          rcases ac <;> simp [handleDownload, runBody, hpu] at hdone
      · exfalso
        rcases fr with _ | ok
        · cases oo <;> simp [handleDownload, runBody, strategy1] at hdone
        · rcases ok <;> rcases bo <;> rcases co <;> rcases oo <;>
            simp [handleDownload, runBody, strategy1] at hdone
    · rintro ⟨hsu, hpu⟩
      simp only at hsu
      subst hsu
      subst hpu
      simp [handleDownload, runBody]
  · intro u hsu hth
    simp only at hsu
    subst hsu
    rcases fr with _ | ok
    · cases oo <;> simp [handleDownload, runBody, strategy1]
    · rcases ok <;> rcases bo <;> rcases co <;> rcases oo <;>
        first
        | (simp [handleDownload, runBody, strategy1]
           done)
        | (exfalso
           simp [strategy1] at hth)
  · rcases su with _ | u
    · by_cases hpu : pu = "" <;> rcases ac <;>
        simp [handleDownload, runBody, hpu]
    · rcases fr with _ | ok
      · cases oo <;> simp [handleDownload, runBody, strategy1]
      · rcases ok <;> rcases bo <;> rcases co <;> rcases oo <;>
          simp [handleDownload, runBody, strategy1]

/-- Witness for C3 as amended: in `envLeak` the body throws, the outer
handler reports `allStrategiesExhausted`, and the strategy-1 failure drove
the new-context fallback. -/
theorem download_failure_isolation_witness :
    (runBody envLeak "k" "n").1 = JsResult.thrown ∧
    (handleDownload envLeak "k" "n").1 = DownloadOutcome.allStrategiesExhausted ∧
    Act.openNewContext "https://signed.example/k" ∈ (handleDownload envLeak "k" "n").2.1 :=
  ⟨by decide, (download_failure_isolation envLeak "k" "n").1 (by decide),
    (download_failure_isolation envLeak "k" "n").2.2.1 "https://signed.example/k" rfl
      (by decide)⟩

/-- C4 counterexample: in `envLeak` the save-as click throws after the
blob URL was created and `window.open` also throws, so every delivery
strategy fails ([1, 3] attempted, outcome `allStrategiesExhausted`), yet
one transient reference is still pending at the end of the run — the blob
URL is never revoked on this exit path. -/
theorem transient_reference_leak_counterexample :
    (handleDownload envLeak "k" "n").1 = DownloadOutcome.allStrategiesExhausted ∧
    attemptKinds (handleDownload envLeak "k" "n").2.1 = [1, 3] ∧
    Act.createObjectURL ∈ (handleDownload envLeak "k" "n").2.1 ∧
    Act.revokeObjectURL ∉ (handleDownload envLeak "k" "n").2.1 ∧
    (handleDownload envLeak "k" "n").2.2 = 1 := by decide

/-- C4 as amended: the count of pending transient references at the end of
a run is 0 on every exit path except the one where an exception occurs
after the blob URL is created and before its cleanup is scheduled (blob
materialised but the save-as click throws), in which case exactly one
reference is leaked. -/
theorem transient_reference_accounting (env : DownloadEnv) (fp fn : String) :
    (handleDownload env fp fn).2.2 =
      if env.signedUrl ≠ none ∧ env.fetchResult = some true ∧ env.blobOk = true ∧
          env.clickOk = false then 1 else 0 := by
  obtain ⟨su, pu, ac, fr, bo, co, oo⟩ := env
  rcases su with _ | u
  · by_cases hpu : pu = "" <;> rcases ac <;>
      simp [handleDownload, runBody, hpu]
  · rcases fr with _ | ok
    · cases oo <;> simp [handleDownload, runBody, strategy1]
    · rcases ok <;> rcases bo <;> rcases co <;> rcases oo <;>
        simp [handleDownload, runBody, strategy1]

